import Mathlib

/-!
Verification development for the qrtool QR-code encoder/decoder front end.

The sources embedded here are `src/core.rs` (the run loop: encode and decode
paths, input-format selection for decoding, the decoded-payload output loop),
`src/encode.rs` (`set_version`, `push_data_for_selected_mode`, the three
renderers `to_svg` / `to_terminal` / `to_image`, and the `Extractor`
implementation for `QrCode::metadata`), and `tests/integration.rs` (exit-code
behaviour of the compiled binary).

The QR codec itself (the qrencode and rqrr crates) and the CLI layer
(`cli.rs`, `main.rs`) are not among the sources; where a claim depends on
them, the corresponding definition is modelled from the specification (or,
for exit codes, from the integration tests) and says so in its doc comment.

Machine integers are embedded as `Int` (for the Rust `i16` version number)
and `Nat` (for byte values, always kept below 256 by the operations that
produce them). Fallible Rust functions returning `Result` become `Except`;
a Rust panic becomes `Option.none`.
-/

namespace Qrtool

/-- The QR code variant selected by the --variant option (cli.rs, modelled
from its use in encode.rs: `Variant::Normal` and `Variant::Micro`). -/
inductive Variant
  | normal
  | micro
deriving DecidableEq

/-- Error type of the qrencode crate as used by the sources: `InvalidVersion`
from `set_version`, `InvalidCharacter` (carrying the offending byte position,
per the specification) and `UnsupportedCharacterSet` from the data-pushing
functions, `DataTooLong` from capacity checks. -/
inductive QrError
  | invalidVersion
  | invalidCharacter (pos : Nat)
  | unsupportedCharacterSet
  | dataTooLong
deriving DecidableEq

/-- Symbol version: `Version::Normal(i16)` or `Version::Micro(i16)` of the
qrencode crate. The payload is the Rust `i16`, embedded as `Int`. -/
inductive Version
  | normal (v : Int)
  | micro (v : Int)
deriving DecidableEq

/-- Embedding of `set_version` (encode.rs lines 22 to 39): a normal version
is accepted iff it matches `1..=40`, a micro version iff it matches `1..=4`;
anything else is `QrError::InvalidVersion`. -/
def set_version (version : Int) (variant : Variant) : Except QrError Version :=
  match variant with
  | Variant.normal =>
      if 1 ≤ version ∧ version ≤ 40 then Except.ok (Version.normal version)
      else Except.error QrError.invalidVersion
  | Variant.micro =>
      if 1 ≤ version ∧ version ≤ 4 then Except.ok (Version.micro version)
      else Except.error QrError.invalidVersion

/-- Error-correction level of the qrencode crate (`EcLevel::{L, M, Q, H}`). -/
inductive EcLevel
  | L
  | M
  | Q
  | H
deriving DecidableEq

/-- Error-correction level on the CLI side (`Ecc` in cli.rs), the target of
the match in `QrCode::metadata` (encode.rs lines 88 to 93). -/
inductive Ecc
  | L
  | M
  | Q
  | H
deriving DecidableEq

/-- Metadata of a symbol (`Metadata::new(symbol_version, error_correction_level)`
of metadata.rs): the effective symbol version as a `usize` and the
error-correction level. -/
structure Metadata where
  symbol_version : Nat
  error_correction_level : Ecc
deriving DecidableEq

/-- Modelled from the spec: the constructed symbol of the qrencode crate
(section 3 of the spec, QR Code) owns a square boolean module matrix, its
Version and its ECC level, immutable once constructed; `QrCode::version()`
and `QrCode::error_correction_level()` read the two stored values back and
`QrCode::to_colors()` and `QrCode::width()` read the matrix (row-major) and
its side length. -/
structure QrCode where
  content : List Bool
  width : Nat
  version : Version
  ec_level : EcLevel
deriving DecidableEq

/-- Rust `usize::try_from` on an `i16` value embedded as `Int`: succeeds with
the value exactly when it is non-negative; `Option.none` models the `Err`
that `.expect("invalid symbol version")` turns into a panic. -/
def usizeTryFrom (i : Int) : Option Nat :=
  if 0 ≤ i then Option.some i.toNat else Option.none

/-- Embedding of the `Extractor` implementation for `QrCode` (encode.rs lines
81 to 96): read the version number out of either variant, convert it with
`usize::try_from` (panic, i.e. `Option.none`, on failure), map the
error-correction level across, and build the `Metadata`. -/
def metadata (code : QrCode) : Option Metadata :=
  let versionNumber :=
    match code.version with
    | Version.normal v => v
    | Version.micro v => v
  match usizeTryFrom versionNumber with
  | Option.none => Option.none
  | Option.some symbolVersion =>
      let errorCorrectionLevel :=
        match code.ec_level with
        | EcLevel.L => Ecc.L
        | EcLevel.M => Ecc.M
        | EcLevel.Q => Ecc.Q
        | EcLevel.H => Ecc.H
      Option.some (Metadata.mk symbolVersion errorCorrectionLevel)

/-- Errors a run of the binary can end with, as exercised by
tests/integration.rs: rejection by the CLI argument parser (invalid option
value, missing required argument), a QR construction error propagated out of
the encode path in core.rs (for example `set_version` failing), failure to
read or decode image content in the requested format, an input whose format
cannot be determined, and a decoding feature not compiled in. -/
inductive RunError
  | clapInvalidValue
  | clapMissingArgument
  | qr (e : QrError)
  | imageRead
  | imageFormatUndetermined
  | featureNotCompiled
deriving DecidableEq

/-- Modelled from the integration tests (the mapping from a run result to a
process exit code lives in main.rs, which is not among the sources):
tests/integration.rs asserts code 2 for CLI-parser rejections (for example
`encode_with_invalid_variant`, `encode_with_variant_without_symbol_version`),
code 65 both for QR construction failures
(`encode_as_micro_qr_code_with_invalid_symbol_version`, line 601) and for
image content that cannot be read in the requested format (the
`decode_from_*` tests), and code 69 when the format cannot be determined
(`decode_from_bmp_cur`) or a feature is not compiled in. -/
def exitCode : Option RunError → Nat
  | Option.none => 0
  | Option.some RunError.clapInvalidValue => 2
  | Option.some RunError.clapMissingArgument => 2
  | Option.some (RunError.qr _) => 65
  | Option.some RunError.imageRead => 65
  | Option.some RunError.imageFormatUndetermined => 69
  | Option.some RunError.featureNotCompiled => 69

/-- The version-validation step of the encode path (core.rs lines 47 to 49):
when a symbol version was given on the command line, `set_version` runs after
argument parsing, and its error is what the run ends with. -/
def encodeVersionCheck (version : Int) (variant : Variant) : Option RunError :=
  match set_version version variant with
  | Except.ok _ => Option.none
  | Except.error e => Option.some (RunError.qr e)

/-- Input image formats selectable with --type on the decode side (cli.rs is
not among the sources; the variants listed are those exercised by
tests/integration.rs, with Svg the one the selection logic distinguishes). -/
inductive InputFormat
  | bmp
  | dds
  | farbfeld
  | gif
  | hdr
  | ico
  | jpeg
  | png
  | pnm
  | svg
  | tga
  | tiff
  | webp
deriving DecidableEq

/-- Embedding of the input-format selection of the decode path (core.rs lines
93 to 97): when `decode::is_svg` sniffs the input as SVG the chosen format is
SVG regardless of the --type option; otherwise the explicit --type option, or
its absence, stands. -/
def selectInputFormat (sniffedSvg : Bool) (inputFormat : Option InputFormat) :
    Option InputFormat :=
  if sniffedSvg then Option.some InputFormat.svg else inputFormat

/-- The three ways the decode path loads the image (core.rs lines 98 to 112):
`decode::from_svg`, `decode::load_image_file` with the explicit format, or
the image-crate reader with a guessed format. -/
inductive DecodePath
  | svg
  | explicitFormat (f : InputFormat)
  | guessFormat
deriving DecidableEq

/-- Embedding of the match in core.rs lines 98 to 112:
`Some(InputFormat::Svg)` goes to `decode::from_svg`, any other `Some(format)`
to `decode::load_image_file` with that format, and `None` to the reader that
guesses the format from the content. -/
def decodeDispatch : Option InputFormat → DecodePath
  | Option.some InputFormat.svg => DecodePath.svg
  | Option.some f => DecodePath.explicitFormat f
  | Option.none => DecodePath.guessFormat

/-- Encoding mode selected by --mode (cli.rs, modelled from its use in
encode.rs: the four QR encoding modes). -/
inductive Mode
  | numeric
  | alphanumeric
  | byte
  | kanji
deriving DecidableEq

/-- Big-endian bit pattern of `val` in `width` bits, the unit in which the
Bit-Stream Builder of the spec (section 4.2) emits every field. -/
def natToBits (width val : Nat) : List Bool :=
  (List.range width).map (fun i => Nat.testBit val (width - 1 - i))

/-- An ASCII digit, the legal character set of numeric mode (spec section 3:
Numeric requires ASCII digits only). -/
def isDigitByte (b : Nat) : Bool := decide (48 ≤ b ∧ b ≤ 57)

/-- Value of a digit byte. -/
def digitValue (b : Nat) : Nat := b - 48

/-- Value of a byte in the 45-symbol alphanumeric alphabet (spec section 4.2:
digits, upper-case letters, space, dollar, percent, asterisk, plus, hyphen,
full stop, solidus, colon), or none when the byte is outside the set. -/
def alnumValue (b : Nat) : Option Nat :=
  if 48 ≤ b ∧ b ≤ 57 then Option.some (b - 48)
  else if 65 ≤ b ∧ b ≤ 90 then Option.some (b - 55)
  else if b = 32 then Option.some 36
  else if b = 36 then Option.some 37
  else if b = 37 then Option.some 38
  else if b = 42 then Option.some 39
  else if b = 43 then Option.some 40
  else if b = 45 then Option.some 41
  else if b = 46 then Option.some 42
  else if b = 47 then Option.some 43
  else if b = 58 then Option.some 44
  else Option.none

/-- Membership in the alphanumeric alphabet. -/
def isAlnumByte (b : Nat) : Bool := (alnumValue b).isSome

/-- The 13-bit value of a double-byte Shift-JIS character under the standard
Shift-JIS-to-QR numeric transform (spec sections 4.1 and 4.2): the pair must
lie in 0x8140 to 0x9FFC or 0xE040 to 0xEBBF with a valid second byte; the
base 0x8140 or 0xC140 is subtracted and the value is high * 0xC0 + low. -/
def kanjiPairValue (b0 b1 : Nat) : Option Nat :=
  if 64 ≤ b1 ∧ b1 ≤ 252 ∧ b1 ≠ 127 then
    if 129 ≤ b0 ∧ b0 ≤ 159 then Option.some ((b0 - 129) * 192 + (b1 - 64))
    else if 224 ≤ b0 ∧ b0 ≤ 235 then Option.some ((b0 - 193) * 192 + (b1 - 64))
    else Option.none
  else Option.none

/-- Numeric-mode data packing (spec section 4.2): groups of 3 digits into 10
bits, a remainder of 2 digits into 7 bits, a remainder of 1 digit into 4. -/
def numericBits : List Nat → List Bool
  | d1 :: d2 :: d3 :: rest =>
      natToBits 10 (digitValue d1 * 100 + digitValue d2 * 10 + digitValue d3)
        ++ numericBits rest
  | [d1, d2] => natToBits 7 (digitValue d1 * 10 + digitValue d2)
  | [d1] => natToBits 4 (digitValue d1)
  | [] => []

/-- Alphanumeric-mode data packing (spec section 4.2): pairs into 11 bits
with value first * 45 + second, an odd trailing character into 6 bits. -/
def alnumBits : List Nat → List Bool
  | c1 :: c2 :: rest =>
      natToBits 11 ((alnumValue c1).getD 0 * 45 + (alnumValue c2).getD 0) ++ alnumBits rest
  | [c1] => natToBits 6 ((alnumValue c1).getD 0)
  | [] => []

/-- Byte-mode data packing (spec section 4.2): each byte verbatim, 8 bits. -/
def byteBits (data : List Nat) : List Bool := (data.map (natToBits 8)).flatten

/-- Kanji-mode data packing (spec section 4.2): each valid double-byte
character into 13 bits of its transform value. -/
def kanjiBits : List Nat → List Bool
  | b0 :: b1 :: rest => natToBits 13 ((kanjiPairValue b0 b1).getD 0) ++ kanjiBits rest
  | [_] => []
  | [] => []

/-- Position (byte offset from `i`) of the first kanji-mode validation
failure: a lone trailing byte or a pair outside the Shift-JIS range (spec
section 4.1: both are fatal encoding errors). -/
def firstKanjiErrorAux : List Nat → Nat → Option Nat
  | [], _ => Option.none
  | [_], i => Option.some i
  | b0 :: b1 :: rest, i =>
      if (kanjiPairValue b0 b1).isSome then firstKanjiErrorAux rest (i + 2)
      else Option.some i

/-- Position of the first byte at which the data fails the requested mode's
character-set validation, or none when every byte is legal. -/
def firstInvalidPos (m : Mode) (data : List Nat) : Option Nat :=
  match m with
  | Mode.numeric => data.findIdx? (fun b => !(isDigitByte b))
  | Mode.alphanumeric => data.findIdx? (fun b => !(isAlnumByte b))
  | Mode.byte => Option.none
  | Mode.kanji => firstKanjiErrorAux data 0

/-- Legality of a whole payload for a mode, stated directly from the spec's
character sets (section 3): every byte an ASCII digit for numeric, every
byte in the 45-symbol alphabet for alphanumeric, anything for byte mode, a
complete sequence of in-range double-byte pairs for kanji. -/
def modeCharsValid (m : Mode) (data : List Nat) : Bool :=
  match m with
  | Mode.numeric => data.all isDigitByte
  | Mode.alphanumeric => data.all isAlnumByte
  | Mode.byte => true
  | Mode.kanji => kanjiPairsValid data
where
  kanjiPairsValid : List Nat → Bool
    | [] => true
    | [_] => false
    | b0 :: b1 :: rest => (kanjiPairValue b0 b1).isSome && kanjiPairsValid rest

/-- Character-count-indicator width for a (version, mode) pair, the fixed
lookup table the spec names in section 4.2; none models the
UnsupportedCharacterSet failure for micro versions that do not admit the
mode (M1 numeric only, M2 numeric and alphanumeric). -/
def charCountWidth : Version → Mode → Option Nat
  | Version.normal n, m =>
      if n ≤ 9 then
        Option.some (match m with
          | Mode.numeric => 10 | Mode.alphanumeric => 9
          | Mode.byte => 8 | Mode.kanji => 8)
      else if n ≤ 26 then
        Option.some (match m with
          | Mode.numeric => 12 | Mode.alphanumeric => 11
          | Mode.byte => 16 | Mode.kanji => 10)
      else
        Option.some (match m with
          | Mode.numeric => 14 | Mode.alphanumeric => 13
          | Mode.byte => 16 | Mode.kanji => 12)
  | Version.micro n, m =>
      if n = 1 then
        match m with
        | Mode.numeric => Option.some 3
        | _ => Option.none
      else if n = 2 then
        match m with
        | Mode.numeric => Option.some 4
        | Mode.alphanumeric => Option.some 3
        | _ => Option.none
      else if n = 3 then
        Option.some (match m with
          | Mode.numeric => 5 | Mode.alphanumeric => 4
          | Mode.byte => 4 | Mode.kanji => 3)
      else if n = 4 then
        Option.some (match m with
          | Mode.numeric => 6 | Mode.alphanumeric => 5
          | Mode.byte => 5 | Mode.kanji => 4)
      else Option.none

/-- Mode indicator bits (spec section 4.2): 4 bits for a normal version, a
version-dependent width for micro versions, none for a micro version that
does not support the mode. -/
def modeIndicator : Version → Mode → Option (List Bool)
  | Version.normal _, m =>
      Option.some (match m with
        | Mode.numeric => [false, false, false, true]
        | Mode.alphanumeric => [false, false, true, false]
        | Mode.byte => [false, true, false, false]
        | Mode.kanji => [true, false, false, false])
  | Version.micro n, m =>
      if n = 1 then
        match m with
        | Mode.numeric => Option.some []
        | _ => Option.none
      else if n = 2 then
        match m with
        | Mode.numeric => Option.some [false]
        | Mode.alphanumeric => Option.some [true]
        | _ => Option.none
      else if n = 3 then
        Option.some (match m with
          | Mode.numeric => [false, false] | Mode.alphanumeric => [false, true]
          | Mode.byte => [true, false] | Mode.kanji => [true, true])
      else if n = 4 then
        Option.some (match m with
          | Mode.numeric => [false, false, false]
          | Mode.alphanumeric => [false, false, true]
          | Mode.byte => [false, true, false]
          | Mode.kanji => [false, true, true])
      else Option.none

/-- Modelled from the spec: `Bits::new(version)` of the external qrencode
crate (spec section 3, Bit Stream): an ordered bit sequence being assembled
for a symbol version. The capacity ceiling is enforced by `push_terminator`
(DataTooLong), which no claim here exercises, so it is not modelled. -/
structure Bits where
  version : Version
  bits : List Bool
deriving DecidableEq

/-- The fresh empty bit stream for a version (`Bits::new`). -/
def Bits.new (v : Version) : Bits := Bits.mk v []

/-- The character count written into the count indicator: characters for
numeric, alphanumeric and byte mode are single bytes, a kanji character is a
byte pair. -/
def charCount (m : Mode) (data : List Nat) : Nat :=
  match m with
  | Mode.kanji => data.length / 2
  | _ => data.length

/-- The mode-specific packed payload bits. -/
def dataBits (m : Mode) (data : List Nat) : List Bool :=
  match m with
  | Mode.numeric => numericBits data
  | Mode.alphanumeric => alnumBits data
  | Mode.byte => byteBits data
  | Mode.kanji => kanjiBits data

/-- Embedding of `push_data_for_selected_mode` (encode.rs lines 42 to 54)
over the spec model of the qrencode push functions (spec sections 4.1 and
4.2, which the external crate implements): the push for the requested mode
first validates the data against the mode's legal character set, failing
with the invalid-character error citing the first offending byte position;
it then appends the mode indicator and the character-count indicator for the
version — failing with UnsupportedCharacterSet when the micro version does
not admit the mode — followed by the mode-specific packed data bits. -/
def push_data_for_selected_mode (bits : Bits) (data : List Nat) (mode : Mode) :
    Except QrError Bits :=
  match firstInvalidPos mode data with
  | Option.some i => Except.error (QrError.invalidCharacter i)
  | Option.none =>
      match modeIndicator bits.version mode, charCountWidth bits.version mode with
      | Option.some mi, Option.some ccw =>
          Except.ok (Bits.mk bits.version
            (bits.bits ++ mi ++ natToBits ccw (charCount mode data) ++ dataBits mode data))
      | _, _ => Except.error QrError.unsupportedCharacterSet

/-- An RGBA color (color.rs is not among the sources; per the spec, section
3, a 4-channel immutable value produced by parsing): `channels()` hands the
four channels to the raster renderer. -/
structure Color where
  r : Nat
  g : Nat
  b : Nat
  a : Nat
deriving DecidableEq

/-- Lower-case hex digit of a value below 16. -/
def hexDigit (n : Nat) : Char :=
  if n < 10 then Char.ofNat (48 + n) else Char.ofNat (87 + n)

/-- Two hex digits of a byte value. -/
def byteHex (n : Nat) : List Char := [hexDigit (n / 16 % 16), hexDigit (n % 16)]

/-- Modelled from the spec: the Display of a parsed color, used by `to_svg`
via `format!` (section 4.4: vector output emits colors as valid markup color
syntax matching the parsed channel values losslessly); rendered as the hex
form with alpha. -/
def colorDisplay (c : Color) : String :=
  String.mk (List.cons '#' (byteHex c.r ++ byteHex c.g ++ byteHex c.b ++ byteHex c.a))

/-- Darkness of the canvas cell (x, y) of a rendered symbol: the canvas is
the module matrix surrounded by a margin of light cells on every side (spec
section 4.4: canvas side length is module count plus twice the margin, the
margin renders light). -/
def canvasModule (content : List Bool) (w m x y : Nat) : Bool :=
  if m ≤ x ∧ x < m + w ∧ m ≤ y ∧ y < m + w then content.getD ((y - m) * w + (x - m)) false
  else false

/-- A self-closing unit rect of the vector output. -/
def svgRect (x y : Nat) : String :=
  "<rect x=\"" ++ toString x ++ "\" y=\"" ++ toString y ++ "\" width=\"1\" height=\"1\"/>"

/-- Modelled from the spec: the vector renderer of the external qrencode
crate (section 4.4): a markup document whose canvas is the module matrix
plus the margin, every light cell (margin included) in the light color and
every dark module a cell in the dark color. -/
def svgRender (modules : List Bool) (w m : Nat) (dark light : String) : String :=
  let canvas := w + 2 * m
  "<svg xmlns=\"http://www.w3.org/2000/svg\" viewBox=\"0 0 " ++ toString canvas ++ " "
    ++ toString canvas ++ "\"><rect width=\"" ++ toString canvas ++ "\" height=\""
    ++ toString canvas ++ "\" fill=\"" ++ light ++ "\"/><g fill=\"" ++ dark ++ "\">"
    ++ String.join ((List.range w).map (fun y => String.join ((List.range w).map (fun x =>
        if modules.getD (y * w + x) false then svgRect (m + x) (m + y) else ""))))
    ++ "</g></svg>"

/-- Embedding of `to_svg` (encode.rs lines 57 to 62): render the module
colors and width of the code with the given margin, the foreground color as
the dark color and the background color as the light color, both written
through the color Display. -/
def to_svg (code : QrCode) (margin : Nat) (colors : Color × Color) : String :=
  svgRender code.content code.width margin (colorDisplay colors.1) (colorDisplay colors.2)

/-- The two glyph colors of the qrencode Dense1x2 unicode renderer. -/
inductive Dense1x2
  | Dark
  | Light
deriving DecidableEq

/-- The half-block glyph for a (top, bottom) pair of glyph colors: full
block, upper half, lower half, or space. -/
def blockChar : Dense1x2 → Dense1x2 → Char
  | Dense1x2.Dark, Dense1x2.Dark => '█'
  | Dense1x2.Dark, Dense1x2.Light => '▀'
  | Dense1x2.Light, Dense1x2.Dark => '▄'
  | Dense1x2.Light, Dense1x2.Light => ' '

/-- Modelled from the spec: the Dense1x2 unicode renderer of the external
qrencode crate (section 4.4): each character row packs two module rows, a
dark cell maps to the glyph color given as dark and a light cell (margin and
the half row below an odd canvas included) to the one given as light, and
each pair becomes the corresponding half-block glyph. -/
def unicodeRenderGrid (content : List Bool) (w m : Nat) (dark light : Dense1x2) :
    List (List Char) :=
  let canvas := w + 2 * m
  (List.range ((canvas + 1) / 2)).map (fun row =>
    (List.range canvas).map (fun x =>
      let top := if canvasModule content w m x (2 * row) then dark else light
      let bottom :=
        if 2 * row + 1 < canvas then
          (if canvasModule content w m x (2 * row + 1) then dark else light)
        else light
      blockChar top bottom))

/-- The character grid of `to_terminal` (encode.rs lines 65 to 70): the
Dense1x2 renderer invoked with `dark_color(Light)` and `light_color(Dark)`,
i.e. with the two glyph colors swapped. -/
def to_terminalGrid (code : QrCode) (margin : Nat) : List (List Char) :=
  unicodeRenderGrid code.content code.width margin Dense1x2.Light Dense1x2.Dark

/-- Embedding of `to_terminal` (encode.rs lines 65 to 70): the character
grid joined into a string with newlines. -/
def to_terminal (code : QrCode) (margin : Nat) : String :=
  String.intercalate "\n" ((to_terminalGrid code margin).map String.mk)

/-- Modelled from the spec: the raster renderer of the external qrencode
crate (section 4.4): a pixel grid of side module count plus twice the
margin, each dark module a pixel of the dark color and every other cell a
pixel of the light color. -/
def rasterRender (content : List Bool) (w m : Nat) (dark light : Color) : List (List Color) :=
  let canvas := w + 2 * m
  (List.range canvas).map (fun y =>
    (List.range canvas).map (fun x => if canvasModule content w m x y then dark else light))

/-- Embedding of `to_image` (encode.rs lines 73 to 79): render the module
colors and width with the margin, the foreground channels as the dark color
and the background channels as the light color. -/
def to_image (code : QrCode) (margin : Nat) (colors : Color × Color) : List (List Color) :=
  rasterRender code.content code.width margin colors.1 colors.2

/-- A UTF-8 continuation byte. -/
def isCont (b : Nat) : Bool := decide (128 ≤ b ∧ b ≤ 191)

/-- Valid second bytes of a three-byte UTF-8 sequence, which exclude overlong
encodings (lead 0xE0 needs 0xA0 to 0xBF) and surrogates (lead 0xED needs
0x80 to 0x9F). -/
def utf8Second3 (b0 b1 : Nat) : Bool :=
  if b0 = 224 then decide (160 ≤ b1 ∧ b1 ≤ 191)
  else if b0 = 237 then decide (128 ≤ b1 ∧ b1 ≤ 159)
  else isCont b1

/-- Valid second bytes of a four-byte UTF-8 sequence, which exclude overlong
encodings (lead 0xF0 needs 0x90 to 0xBF) and values beyond U+10FFFF (lead
0xF4 allows only 0x80 to 0x8F). -/
def utf8Second4 (b0 b1 : Nat) : Bool :=
  if b0 = 240 then decide (144 ≤ b1 ∧ b1 ≤ 191)
  else if b0 = 244 then decide (128 ≤ b1 ∧ b1 ≤ 143)
  else isCont b1

/-- A two-byte lead (0xC2 to 0xDF; 0xC0 and 0xC1 would be overlong). -/
def utf8Lead2 (b0 : Nat) : Bool := decide (194 ≤ b0 ∧ b0 < 224)

/-- A three-byte lead (0xE0 to 0xEF). -/
def utf8Lead3 (b0 : Nat) : Bool := decide (224 ≤ b0 ∧ b0 < 240)

/-- A four-byte lead (0xF0 to 0xF4; larger leads would pass U+10FFFF). -/
def utf8Lead4 (b0 : Nat) : Bool := decide (240 ≤ b0 ∧ b0 < 245)

/-- The scalar value of a two-byte sequence. -/
def utf8Val2 (b0 b1 : Nat) : Nat := (b0 - 192) * 64 + (b1 - 128)

/-- The scalar value of a three-byte sequence. -/
def utf8Val3 (b0 b1 b2 : Nat) : Nat := (b0 - 224) * 4096 + (b1 - 128) * 64 + (b2 - 128)

/-- The scalar value of a four-byte sequence. -/
def utf8Val4 (b0 b1 b2 b3 : Nat) : Nat :=
  (b0 - 240) * 262144 + (b1 - 128) * 4096 + (b2 - 128) * 64 + (b3 - 128)

/-- Modelled from the Rust standard library semantics of `str::from_utf8`
(external to this repository): strict UTF-8 validation and decoding of a
byte sequence into its scalar values, rejecting stray continuation bytes,
overlong forms, surrogates and out-of-range leads; `Option.none` models the
`Err` that sends core.rs down the raw-bytes branch. A sequence shorter than
its lead byte demands, or a byte failing any range check, falls through to
the failure arm of its shape. -/
def utf8Decode : List Nat → Option (List Nat)
  | [] => Option.some []
  | [b0] => if b0 < 128 then Option.some [b0] else Option.none
  | [b0, b1] =>
      if b0 < 128 then (utf8Decode [b1]).map (fun cs => b0 :: cs)
      else if utf8Lead2 b0 && isCont b1 then Option.some [utf8Val2 b0 b1]
      else Option.none
  | [b0, b1, b2] =>
      if b0 < 128 then (utf8Decode [b1, b2]).map (fun cs => b0 :: cs)
      else if utf8Lead2 b0 && isCont b1 then (utf8Decode [b2]).map (fun cs => utf8Val2 b0 b1 :: cs)
      else if utf8Lead3 b0 && (utf8Second3 b0 b1 && isCont b2) then
        Option.some [utf8Val3 b0 b1 b2]
      else Option.none
  | b0 :: b1 :: b2 :: b3 :: rest =>
      if b0 < 128 then (utf8Decode (b1 :: b2 :: b3 :: rest)).map (fun cs => b0 :: cs)
      else if utf8Lead2 b0 && isCont b1 then
        (utf8Decode (b2 :: b3 :: rest)).map (fun cs => utf8Val2 b0 b1 :: cs)
      else if utf8Lead3 b0 && (utf8Second3 b0 b1 && isCont b2) then
        (utf8Decode (b3 :: rest)).map (fun cs => utf8Val3 b0 b1 b2 :: cs)
      else if utf8Lead4 b0 && (utf8Second4 b0 b1 && (isCont b2 && isCont b3)) then
        (utf8Decode rest).map (fun cs => utf8Val4 b0 b1 b2 b3 :: cs)
      else Option.none

/-- The UTF-8 encoding of one scalar value, as the Rust standard library
writes a `str` back out byte for byte. -/
def utf8EncodeChar (c : Nat) : List Nat :=
  if c < 128 then [c]
  else if c < 2048 then [192 + c / 64, 128 + c % 64]
  else if c < 65536 then [224 + c / 4096, 128 + c / 64 % 64, 128 + c % 64]
  else [240 + c / 262144, 128 + c / 4096 % 64, 128 + c / 64 % 64, 128 + c % 64]

/-- The UTF-8 encoding of a sequence of scalar values. -/
def utf8Encode (cs : List Nat) : List Nat := (cs.map utf8EncodeChar).flatten

/-- Embedding of the body of the decode output loop (core.rs lines 123 to
131): when the payload bytes parse as UTF-8 the parsed string is printed
with `println!`, i.e. its UTF-8 encoding followed by one newline byte goes
to standard output; otherwise the raw bytes go out verbatim through
`write_all`, with no newline. -/
def writeContent (payload : List Nat) : List Nat :=
  match utf8Decode payload with
  | Option.some s => utf8Encode s ++ [10]
  | Option.none => payload

end Qrtool

namespace Qrtool

/-- C2: `set_version(v, Normal)` returns `Ok(Version::Normal(v))` iff
`1 ≤ v ≤ 40`, `set_version(v, Micro)` returns `Ok(Version::Micro(v))` iff
`1 ≤ v ≤ 4`, and in every other case the result is the `InvalidVersion`
error, so the value is never clamped into range. -/
theorem set_version_bounds (v : Int) :
    (set_version v Variant.normal = Except.ok (Version.normal v) ↔ 1 ≤ v ∧ v ≤ 40)
    ∧ (set_version v Variant.micro = Except.ok (Version.micro v) ↔ 1 ≤ v ∧ v ≤ 4)
    ∧ (¬(1 ≤ v ∧ v ≤ 40) → set_version v Variant.normal = Except.error QrError.invalidVersion)
    ∧ (¬(1 ≤ v ∧ v ≤ 4) → set_version v Variant.micro = Except.error QrError.invalidVersion) := by
  refine ⟨?_, ?_, ?_, ?_⟩ <;> simp only [set_version] <;> split <;> simp_all

/-- Closed instance of `set_version_bounds`: at version 41 the normal-variant
range hypothesis fails, and the theorem yields the `InvalidVersion` error. -/
theorem set_version_bounds_witness :
    set_version 41 Variant.normal = Except.error QrError.invalidVersion :=
  (set_version_bounds 41).2.2.1 (by decide)

/-- C3: for every code constructed with `Version::Normal(1)` and a level in
L, M, Q, H — per the spec, a constructed symbol stores exactly the version
and level it was constructed with, which the hypotheses express — extracting
its metadata returns exactly version 1 paired with the same level. -/
theorem metadata_fidelity (c : QrCode) (h : c.version = Version.normal 1) :
    (c.ec_level = EcLevel.L → metadata c = Option.some (Metadata.mk 1 Ecc.L))
    ∧ (c.ec_level = EcLevel.M → metadata c = Option.some (Metadata.mk 1 Ecc.M))
    ∧ (c.ec_level = EcLevel.Q → metadata c = Option.some (Metadata.mk 1 Ecc.Q))
    ∧ (c.ec_level = EcLevel.H → metadata c = Option.some (Metadata.mk 1 Ecc.H)) := by
  refine ⟨?_, ?_, ?_, ?_⟩ <;> intro hl <;> simp [metadata, h, hl, usizeTryFrom]

/-- Closed instance of `metadata_fidelity` at a concrete version-1 code with
level Q: metadata extraction returns exactly (1, Q). -/
theorem metadata_fidelity_witness :
    metadata (QrCode.mk (List.replicate 441 false) 21 (Version.normal 1) EcLevel.Q)
      = Option.some (Metadata.mk 1 Ecc.Q) :=
  (metadata_fidelity (QrCode.mk (List.replicate 441 false) 21 (Version.normal 1) EcLevel.Q)
    rfl).2.2.1 rfl

/-- C10: every version accepted by `set_version` is at least 1, hence
non-negative, so on a code carrying such a version the `usize::try_from`
conversion inside `metadata` succeeds and `metadata` is total (never reaches
the panic, modelled as `Option.none`). -/
theorem metadata_total_on_constructed (v : Int) (variant : Variant) (ver : Version)
    (c : QrCode) (hset : set_version v variant = Except.ok ver) (hver : c.version = ver) :
    (metadata c).isSome := by
  cases variant with
  | normal =>
      simp only [set_version] at hset
      by_cases hr : 1 ≤ v ∧ v ≤ 40
      · rw [if_pos hr] at hset
        injection hset with hset
        subst hset
        have h0 : (0 : Int) ≤ v := by omega
        simp [metadata, hver, usizeTryFrom, h0]
      · rw [if_neg hr] at hset
        cases hset
  | micro =>
      simp only [set_version] at hset
      by_cases hr : 1 ≤ v ∧ v ≤ 4
      · rw [if_pos hr] at hset
        injection hset with hset
        subst hset
        have h0 : (0 : Int) ≤ v := by omega
        simp [metadata, hver, usizeTryFrom, h0]
      · rw [if_neg hr] at hset
        cases hset

/-- Closed instance of `metadata_total_on_constructed`: the version accepted
by `set_version 1 Normal`, placed on a concrete code, gives some metadata. -/
theorem metadata_total_on_constructed_witness :
    (metadata (QrCode.mk (List.replicate 441 false) 21 (Version.normal 1) EcLevel.L)).isSome :=
  metadata_total_on_constructed 1 Variant.normal (Version.normal 1)
    (QrCode.mk (List.replicate 441 false) 21 (Version.normal 1) EcLevel.L) rfl rfl

/-- C4 counterexample: the invocation `encode -v 5 --variant micro` fails
argument validation (the symbol version is outside the micro range), yet the
run exits with code 65, not 2 — exactly what
`encode_as_micro_qr_code_with_invalid_symbol_version` in
tests/integration.rs (line 601) asserts — refuting the claim that every
argument-validation failure exits with code 2 and that 65 is reserved for
unreadable image content. -/
theorem exit_code_claim_counterexample :
    encodeVersionCheck 5 Variant.micro = Option.some (RunError.qr QrError.invalidVersion)
    ∧ exitCode (encodeVersionCheck 5 Variant.micro) = 65
    ∧ exitCode (encodeVersionCheck 5 Variant.micro) ≠ 2 := by decide

/-- C4 amended: invocations rejected by the CLI argument parser exit with
code 2, but a --symbol-version outside the variant's valid range is rejected
only after parsing, by `set_version` inside the encode path, and exits with
code 65, the same code as image content that cannot be read or decoded in
the requested format; code 69 covers a format that cannot be determined and
an optional feature that is not compiled in; an in-range version produces no
error from this step. -/
theorem exit_code_convention (v : Int) (variant : Variant) :
    (exitCode (Option.some RunError.clapInvalidValue) = 2
      ∧ exitCode (Option.some RunError.clapMissingArgument) = 2)
    ∧ ((set_version v variant).isOk →
        encodeVersionCheck v variant = Option.none
        ∧ exitCode (encodeVersionCheck v variant) = 0)
    ∧ (∀ e, set_version v variant = Except.error e →
        encodeVersionCheck v variant = Option.some (RunError.qr e)
        ∧ exitCode (encodeVersionCheck v variant) = 65)
    ∧ exitCode (Option.some RunError.imageRead) = 65
    ∧ (exitCode (Option.some RunError.imageFormatUndetermined) = 69
      ∧ exitCode (Option.some RunError.featureNotCompiled) = 69) := by
  refine ⟨⟨rfl, rfl⟩, ?_, ?_, rfl, rfl, rfl⟩
  · intro hok
    cases hcase : set_version v variant with
    | ok ver => exact ⟨by simp [encodeVersionCheck, hcase], by simp [encodeVersionCheck, hcase, exitCode]⟩
    | error e => rw [hcase] at hok; cases hok
  · intro e herr
    exact ⟨by simp [encodeVersionCheck, herr], by simp [encodeVersionCheck, herr, exitCode]⟩

/-- Closed instance of `exit_code_convention`: the out-of-range micro version
5 makes `set_version` fail and the run exit with code 65. -/
theorem exit_code_convention_witness :
    exitCode (encodeVersionCheck 5 Variant.micro) = 65 :=
  ((exit_code_convention 5 Variant.micro).2.2.1 QrError.invalidVersion rfl).2

/-- C5: the decode path takes the input format from the explicit --type
option when one is given, content-sniffs (guesses) it otherwise, and
SVG-sniffing takes precedence over both: an input detected as SVG is decoded
through the SVG path no matter what --type says. -/
theorem decode_input_format_selection (sniffedSvg : Bool) (t : Option InputFormat) :
    (sniffedSvg = true → decodeDispatch (selectInputFormat sniffedSvg t) = DecodePath.svg)
    ∧ (sniffedSvg = false → ∀ f, t = Option.some f → f ≠ InputFormat.svg →
        decodeDispatch (selectInputFormat sniffedSvg t) = DecodePath.explicitFormat f)
    ∧ (sniffedSvg = false → t = Option.some InputFormat.svg →
        decodeDispatch (selectInputFormat sniffedSvg t) = DecodePath.svg)
    ∧ (sniffedSvg = false → t = Option.none →
        decodeDispatch (selectInputFormat sniffedSvg t) = DecodePath.guessFormat) := by
  refine ⟨?_, ?_, ?_, ?_⟩
  · intro h
    subst h
    rfl
  · intro h f hf hne
    subst h
    subst hf
    cases f <;> simp_all [selectInputFormat, decodeDispatch]
  · intro h hf
    subst h
    subst hf
    rfl
  · intro h ht
    subst h
    subst ht
    rfl

/-- Closed instance of `decode_input_format_selection`: an input sniffed as
SVG is decoded as SVG even though --type says PNG. -/
theorem decode_input_format_selection_witness :
    decodeDispatch (selectInputFormat true (Option.some InputFormat.png)) = DecodePath.svg :=
  (decode_input_format_selection true (Option.some InputFormat.png)).1 rfl

/-- Induction over a byte list two elements at a time, matching the pair
structure of kanji-mode data. -/
theorem twoStepInduction {P : List Nat → Prop} (h0 : P []) (h1 : ∀ b, P [b])
    (h2 : ∀ b0 b1 rest, P rest → P (b0 :: b1 :: rest)) : ∀ l, P l
  | [] => h0
  | [b] => h1 b
  | b0 :: b1 :: rest => h2 b0 b1 rest (twoStepInduction h0 h1 h2 rest)

/-- The kanji scanner reports no position exactly when the data is a complete
sequence of in-range double-byte pairs. -/
theorem firstKanjiErrorAux_none (l : List Nat) :
    ∀ i, (firstKanjiErrorAux l i = Option.none ↔ modeCharsValid.kanjiPairsValid l = true) := by
  induction l using twoStepInduction with
  | h0 =>
      intro i
      simp [firstKanjiErrorAux, modeCharsValid.kanjiPairsValid]
  | h1 b =>
      intro i
      simp [firstKanjiErrorAux, modeCharsValid.kanjiPairsValid]
  | h2 b0 b1 rest ih =>
      intro i
      simp only [firstKanjiErrorAux, modeCharsValid.kanjiPairsValid]
      by_cases hk : (kanjiPairValue b0 b1).isSome
      · simp [hk, ih]
      · simp [hk]

/-- The first-invalid-position scanner finds nothing exactly when the data is
legal for the mode. -/
theorem firstInvalidPos_none_iff (m : Mode) (data : List Nat) :
    firstInvalidPos m data = Option.none ↔ modeCharsValid m data = true := by
  cases m with
  | numeric =>
      simp [firstInvalidPos, modeCharsValid, List.findIdx?_eq_none_iff, List.all_eq_true]
  | alphanumeric =>
      simp [firstInvalidPos, modeCharsValid, List.findIdx?_eq_none_iff, List.all_eq_true]
  | byte => simp [firstInvalidPos, modeCharsValid]
  | kanji =>
      simpa [firstInvalidPos, modeCharsValid] using firstKanjiErrorAux_none data 0

/-- C6: for every payload and explicitly requested mode, the push validates
the payload against the mode's legal character set: legal data never draws
an invalid-character error, illegal data always draws one (never silently
encoded), the error cites the first offending position, and under numeric
mode the cited position really holds a non-digit byte. -/
theorem push_data_for_selected_mode_validates (bits : Bits) (data : List Nat) (mode : Mode) :
    (modeCharsValid mode data = true →
      ∀ i, push_data_for_selected_mode bits data mode ≠ Except.error (QrError.invalidCharacter i))
    ∧ (modeCharsValid mode data = false →
      ∃ i, push_data_for_selected_mode bits data mode = Except.error (QrError.invalidCharacter i))
    ∧ (∀ i, firstInvalidPos mode data = Option.some i →
      push_data_for_selected_mode bits data mode = Except.error (QrError.invalidCharacter i))
    ∧ (mode = Mode.numeric →
      ∀ i, push_data_for_selected_mode bits data mode = Except.error (QrError.invalidCharacter i) →
      ∃ hb : i < data.length, isDigitByte (data.get ⟨i, hb⟩) = false) := by
  refine ⟨?_, ?_, ?_, ?_⟩
  · intro hvalid i
    simp only [push_data_for_selected_mode, (firstInvalidPos_none_iff mode data).mpr hvalid]
    cases modeIndicator bits.version mode <;> cases charCountWidth bits.version mode <;> simp
  · intro hinvalid
    cases hf : firstInvalidPos mode data with
    | none => exact absurd ((firstInvalidPos_none_iff mode data).mp hf) (by simp [hinvalid])
    | some i => exact ⟨i, by simp [push_data_for_selected_mode, hf]⟩
  · intro i hf
    simp [push_data_for_selected_mode, hf]
  · intro hm i herr
    subst hm
    have hf : firstInvalidPos Mode.numeric data = Option.some i := by
      rw [push_data_for_selected_mode] at herr
      cases hc : firstInvalidPos Mode.numeric data with
      | none =>
          rw [hc] at herr
          cases hmi : modeIndicator bits.version Mode.numeric <;>
            cases hcw : charCountWidth bits.version Mode.numeric <;>
              rw [hmi, hcw] at herr <;> simp at herr
      | some j =>
          rw [hc] at herr
          simp only [Except.error.injEq, QrError.invalidCharacter.injEq] at herr
          rw [herr]
    simp only [firstInvalidPos] at hf
    obtain ⟨hlt, hidx⟩ := List.findIdx?_eq_some_iff_findIdx_eq.mp hf
    refine ⟨hlt, ?_⟩
    have hp := @List.findIdx_getElem _ (fun b => !(isDigitByte b)) data (hidx ▸ hlt)
    simp only [Bool.not_eq_true'] at hp
    rw [List.get_eq_getElem]
    simpa [hidx] using hp

/-- Closed instance of `push_data_for_selected_mode_validates`: the payload
"4A" contains a non-digit byte, so pushing it under numeric mode fails with
the invalid-character error instead of silently encoding it. -/
theorem push_data_for_selected_mode_validates_witness :
    ∃ i, push_data_for_selected_mode (Bits.new (Version.normal 1)) [52, 65] Mode.numeric
      = Except.error (QrError.invalidCharacter i) :=
  (push_data_for_selected_mode_validates (Bits.new (Version.normal 1)) [52, 65]
    Mode.numeric).2.1 (by decide)

/-- Element of a map over a range, with defaulted indexing. -/
theorem getD_map_range {α : Type} (f : Nat → α) (n i : Nat) (h : i < n) (d : α) :
    ((List.range n).map f).getD i d = f i := by
  rw [List.getD_eq_getElem?_getD, List.getElem?_map, List.getElem?_range h]
  rfl

/-- C7: every renderer is a function of the module matrix, the margin and
the colors alone: two codes with the same matrix and width render
byte-identically in the vector, terminal and raster output kinds under the
same margin and colors, so repeated rendering of one symbol is idempotent. -/
theorem render_deterministic (c1 c2 : QrCode) (margin : Nat) (colors : Color × Color)
    (hcontent : c1.content = c2.content) (hwidth : c1.width = c2.width) :
    to_svg c1 margin colors = to_svg c2 margin colors
    ∧ to_terminal c1 margin = to_terminal c2 margin
    ∧ to_image c1 margin colors = to_image c2 margin colors := by
  refine ⟨?_, ?_, ?_⟩ <;>
    simp only [to_svg, to_terminal, to_terminalGrid, to_image, hcontent, hwidth]

/-- Closed instance of `render_deterministic`: two codes equal in matrix and
width but differing in version and level render identically in all three
output kinds. -/
theorem render_deterministic_witness :
    to_svg (QrCode.mk [true] 1 (Version.normal 1) EcLevel.L) 4
        (Color.mk 0 0 0 255, Color.mk 255 255 255 255)
      = to_svg (QrCode.mk [true] 1 (Version.micro 2) EcLevel.H) 4
        (Color.mk 0 0 0 255, Color.mk 255 255 255 255)
    ∧ to_terminal (QrCode.mk [true] 1 (Version.normal 1) EcLevel.L) 4
      = to_terminal (QrCode.mk [true] 1 (Version.micro 2) EcLevel.H) 4
    ∧ to_image (QrCode.mk [true] 1 (Version.normal 1) EcLevel.L) 4
        (Color.mk 0 0 0 255, Color.mk 255 255 255 255)
      = to_image (QrCode.mk [true] 1 (Version.micro 2) EcLevel.H) 4
        (Color.mk 0 0 0 255, Color.mk 255 255 255 255) :=
  render_deterministic (QrCode.mk [true] 1 (Version.normal 1) EcLevel.L)
    (QrCode.mk [true] 1 (Version.micro 2) EcLevel.H) 4
    (Color.mk 0 0 0 255, Color.mk 255 255 255 255) rfl rfl

/-- C8: the terminal rendering packs two module rows into each character row
of half-block glyphs — the grid has one character row per two canvas rows,
and the character at (row, x) is the half-block pair of canvas rows 2*row
and 2*row+1 — with the default inversion: a dark module maps to the Light
glyph color and a light one to the Dark glyph color; the final string joins
the grid rows with newlines. -/
theorem to_terminal_half_block_inversion (c : QrCode) (margin row x : Nat)
    (hrow : row < (c.width + 2 * margin + 1) / 2) (hx : x < c.width + 2 * margin) :
    (to_terminalGrid c margin).length = (c.width + 2 * margin + 1) / 2
    ∧ ((to_terminalGrid c margin).getD row []).getD x 'Q' =
        blockChar
          (if canvasModule c.content c.width margin x (2 * row) then Dense1x2.Light
           else Dense1x2.Dark)
          (if 2 * row + 1 < c.width + 2 * margin then
            (if canvasModule c.content c.width margin x (2 * row + 1) then Dense1x2.Light
             else Dense1x2.Dark)
           else Dense1x2.Dark)
    ∧ to_terminal c margin
        = String.intercalate "\n" ((to_terminalGrid c margin).map String.mk) := by
  refine ⟨?_, ?_, rfl⟩
  · simp [to_terminalGrid, unicodeRenderGrid]
  · simp only [to_terminalGrid, unicodeRenderGrid]
    rw [getD_map_range _ _ _ hrow, getD_map_range _ _ _ hx]

/-- Closed instance of `to_terminal_half_block_inversion` on a one-module
all-dark matrix with no margin: the single dark module lands in the upper
half of the only character cell, maps to the Light glyph color, and the
below-canvas lower half is light, so the cell is the lower half-block. -/
theorem to_terminal_half_block_inversion_witness :
    ((to_terminalGrid (QrCode.mk [true] 1 (Version.normal 1) EcLevel.L) 0).getD 0 []).getD 0 'Q'
      = blockChar Dense1x2.Light Dense1x2.Dark :=
  (to_terminal_half_block_inversion (QrCode.mk [true] 1 (Version.normal 1) EcLevel.L) 0 0 0
    (by decide) (by decide)).2.1

/-- Encoding splits off the first scalar value. -/
theorem utf8Encode_cons (v : Nat) (cs : List Nat) :
    utf8Encode (v :: cs) = utf8EncodeChar v ++ utf8Encode cs := by
  simp [utf8Encode]

/-- Re-encoding a decoded one-byte sequence gives the byte back. -/
theorem utf8EncodeChar_one (b0 : Nat) (h0 : b0 < 128) : utf8EncodeChar b0 = [b0] := by
  simp [utf8EncodeChar, if_pos h0]

/-- Re-encoding a decoded two-byte sequence gives the bytes back. -/
theorem utf8EncodeChar_two (b0 b1 : Nat) (h0 : utf8Lead2 b0 = true) (h1 : isCont b1 = true) :
    utf8EncodeChar (utf8Val2 b0 b1) = [b0, b1] := by
  have hb0 : 194 ≤ b0 ∧ b0 < 224 := by simpa [utf8Lead2] using h0
  have hb1 : 128 ≤ b1 ∧ b1 ≤ 191 := by simpa [isCont] using h1
  simp only [utf8Val2]
  have hge : ¬((b0 - 192) * 64 + (b1 - 128) < 128) := by omega
  have hlt : (b0 - 192) * 64 + (b1 - 128) < 2048 := by omega
  simp only [utf8EncodeChar, if_neg hge, if_pos hlt]
  have e1 : ((b0 - 192) * 64 + (b1 - 128)) / 64 = b0 - 192 := by omega
  have e2 : ((b0 - 192) * 64 + (b1 - 128)) % 64 = b1 - 128 := by omega
  rw [e1, e2]
  have f1 : 192 + (b0 - 192) = b0 := by omega
  have f2 : 128 + (b1 - 128) = b1 := by omega
  rw [f1, f2]

/-- Re-encoding a decoded three-byte sequence gives the bytes back. -/
theorem utf8EncodeChar_three (b0 b1 b2 : Nat) (hl : utf8Lead3 b0 = true)
    (hs : utf8Second3 b0 b1 = true) (h2 : isCont b2 = true) :
    utf8EncodeChar (utf8Val3 b0 b1 b2) = [b0, b1, b2] := by
  have hb0 : 224 ≤ b0 ∧ b0 < 240 := by simpa [utf8Lead3] using hl
  have h0 : 224 ≤ b0 := hb0.1
  have h0b : b0 < 240 := hb0.2
  simp only [utf8Val3]
  have hb2 : 128 ≤ b2 ∧ b2 ≤ 191 := by simpa [isCont] using h2
  have hb1 : (128 ≤ b1 ∧ b1 ≤ 191)
      ∧ 2048 ≤ (b0 - 224) * 4096 + (b1 - 128) * 64 + (b2 - 128) := by
    by_cases e0 : b0 = 224
    · subst e0
      have hr : 160 ≤ b1 ∧ b1 ≤ 191 := by simpa [utf8Second3] using hs
      exact ⟨⟨by omega, hr.2⟩, by omega⟩
    · by_cases e7 : b0 = 237
      · subst e7
        have hr : 128 ≤ b1 ∧ b1 ≤ 159 := by simpa [utf8Second3] using hs
        exact ⟨⟨hr.1, by omega⟩, by omega⟩
      · have hr : 128 ≤ b1 ∧ b1 ≤ 191 := by simpa [utf8Second3, e0, e7, isCont] using hs
        exact ⟨hr, by omega⟩
  obtain ⟨hb1, hge⟩ := hb1
  have hn1 : ¬((b0 - 224) * 4096 + (b1 - 128) * 64 + (b2 - 128) < 128) := by omega
  have hn2 : ¬((b0 - 224) * 4096 + (b1 - 128) * 64 + (b2 - 128) < 2048) := by omega
  have hlt : (b0 - 224) * 4096 + (b1 - 128) * 64 + (b2 - 128) < 65536 := by omega
  simp only [utf8EncodeChar, if_neg hn1, if_neg hn2, if_pos hlt]
  have e1 : ((b0 - 224) * 4096 + (b1 - 128) * 64 + (b2 - 128)) / 4096 = b0 - 224 := by omega
  have e2 : ((b0 - 224) * 4096 + (b1 - 128) * 64 + (b2 - 128)) / 64 % 64 = b1 - 128 := by omega
  have e3 : ((b0 - 224) * 4096 + (b1 - 128) * 64 + (b2 - 128)) % 64 = b2 - 128 := by omega
  rw [e1, e2, e3]
  have f1 : 224 + (b0 - 224) = b0 := by omega
  have f2 : 128 + (b1 - 128) = b1 := by omega
  have f3 : 128 + (b2 - 128) = b2 := by omega
  rw [f1, f2, f3]

/-- Re-encoding a decoded four-byte sequence gives the bytes back. -/
theorem utf8EncodeChar_four (b0 b1 b2 b3 : Nat) (hl : utf8Lead4 b0 = true)
    (hs : utf8Second4 b0 b1 = true) (h2 : isCont b2 = true) (h3 : isCont b3 = true) :
    utf8EncodeChar (utf8Val4 b0 b1 b2 b3) = [b0, b1, b2, b3] := by
  have hb0 : 240 ≤ b0 ∧ b0 < 245 := by simpa [utf8Lead4] using hl
  have h0 : 240 ≤ b0 := hb0.1
  have h0b : b0 < 245 := hb0.2
  simp only [utf8Val4]
  have hb2 : 128 ≤ b2 ∧ b2 ≤ 191 := by simpa [isCont] using h2
  have hb3 : 128 ≤ b3 ∧ b3 ≤ 191 := by simpa [isCont] using h3
  have hb1 : (128 ≤ b1 ∧ b1 ≤ 191)
      ∧ 65536 ≤ (b0 - 240) * 262144 + (b1 - 128) * 4096 + (b2 - 128) * 64 + (b3 - 128) := by
    by_cases e0 : b0 = 240
    · subst e0
      have hr : 144 ≤ b1 ∧ b1 ≤ 191 := by simpa [utf8Second4] using hs
      exact ⟨⟨by omega, hr.2⟩, by omega⟩
    · by_cases e4 : b0 = 244
      · subst e4
        have hr : 128 ≤ b1 ∧ b1 ≤ 143 := by simpa [utf8Second4] using hs
        exact ⟨⟨hr.1, by omega⟩, by omega⟩
      · have hr : 128 ≤ b1 ∧ b1 ≤ 191 := by simpa [utf8Second4, e0, e4, isCont] using hs
        exact ⟨hr, by omega⟩
  obtain ⟨hb1, hge⟩ := hb1
  have hn1 :
      ¬((b0 - 240) * 262144 + (b1 - 128) * 4096 + (b2 - 128) * 64 + (b3 - 128) < 128) := by
    omega
  have hn2 :
      ¬((b0 - 240) * 262144 + (b1 - 128) * 4096 + (b2 - 128) * 64 + (b3 - 128) < 2048) := by
    omega
  have hn3 :
      ¬((b0 - 240) * 262144 + (b1 - 128) * 4096 + (b2 - 128) * 64 + (b3 - 128) < 65536) := by
    omega
  simp only [utf8EncodeChar, if_neg hn1, if_neg hn2, if_neg hn3]
  have e1 : ((b0 - 240) * 262144 + (b1 - 128) * 4096 + (b2 - 128) * 64 + (b3 - 128)) / 262144
      = b0 - 240 := by omega
  have e2 : ((b0 - 240) * 262144 + (b1 - 128) * 4096 + (b2 - 128) * 64 + (b3 - 128)) / 4096 % 64
      = b1 - 128 := by omega
  have e3 : ((b0 - 240) * 262144 + (b1 - 128) * 4096 + (b2 - 128) * 64 + (b3 - 128)) / 64 % 64
      = b2 - 128 := by omega
  have e4 : ((b0 - 240) * 262144 + (b1 - 128) * 4096 + (b2 - 128) * 64 + (b3 - 128)) % 64
      = b3 - 128 := by omega
  rw [e1, e2, e3, e4]
  have f1 : 240 + (b0 - 240) = b0 := by omega
  have f2 : 128 + (b1 - 128) = b1 := by omega
  have f3 : 128 + (b2 - 128) = b2 := by omega
  have f4 : 128 + (b3 - 128) = b3 := by omega
  rw [f1, f2, f3, f4]

/-- Re-encoding any successfully decoded byte sequence reproduces it byte
for byte. -/
theorem utf8Encode_decode (bs : List Nat) :
    ∀ cs, utf8Decode bs = Option.some cs → utf8Encode cs = bs := by
  induction bs using utf8Decode.induct with
  | case1 =>
      intro cs h
      simp only [utf8Decode, Option.some.injEq] at h
      subst h
      rfl
  | case2 b0 h0 =>
      intro cs h
      simp only [utf8Decode, if_pos h0, Option.some.injEq] at h
      subst h
      simp [utf8Encode, utf8EncodeChar_one b0 h0]
  | case3 b0 h0 =>
      intro cs h
      simp [utf8Decode, if_neg h0] at h
  | case4 b0 b1 h0 ih =>
      intro cs h
      simp only [utf8Decode, if_pos h0, Option.map_eq_some'] at h
      obtain ⟨cs2, hrest, rfl⟩ := h
      rw [utf8Encode_cons, utf8EncodeChar_one b0 h0, ih cs2 hrest]
      rfl
  | case5 b0 b1 h0 hcond =>
      intro cs h
      simp only [utf8Decode, if_neg h0, if_pos hcond, Option.some.injEq] at h
      subst h
      obtain ⟨hl, hc1⟩ : utf8Lead2 b0 = true ∧ isCont b1 = true := by simpa using hcond
      simp [utf8Encode, utf8EncodeChar_two b0 b1 hl hc1]
  | case6 b0 b1 h0 hcond =>
      intro cs h
      simp only [Bool.and_eq_true] at hcond
      simp [utf8Decode, h0, hcond] at h
  | case7 b0 b1 b2 h0 ih =>
      intro cs h
      simp only [utf8Decode, if_pos h0, Option.map_eq_some'] at h
      obtain ⟨cs2, hrest, rfl⟩ := h
      rw [utf8Encode_cons, utf8EncodeChar_one b0 h0, ih cs2 hrest]
      rfl
  | case8 b0 b1 b2 h0 hcond ih =>
      intro cs h
      simp only [utf8Decode, if_neg h0, if_pos hcond, Option.map_eq_some'] at h
      obtain ⟨cs2, hrest, rfl⟩ := h
      obtain ⟨hl, hc1⟩ : utf8Lead2 b0 = true ∧ isCont b1 = true := by simpa using hcond
      rw [utf8Encode_cons, utf8EncodeChar_two b0 b1 hl hc1, ih cs2 hrest]
      rfl
  | case9 b0 b1 b2 h0 hcond2 hcond3 =>
      intro cs h
      simp only [utf8Decode, if_neg h0, if_neg hcond2, if_pos hcond3, Option.some.injEq] at h
      subst h
      obtain ⟨hl, hs3, hc2⟩ : utf8Lead3 b0 = true ∧ utf8Second3 b0 b1 = true ∧ isCont b2 = true := by
        simpa [Bool.and_eq_true] using hcond3
      simp [utf8Encode, utf8EncodeChar_three b0 b1 b2 hl hs3 hc2]
  | case10 b0 b1 b2 h0 hcond2 hcond3 =>
      intro cs h
      simp only [Bool.and_eq_true] at hcond2 hcond3
      simp [utf8Decode, h0, hcond2, hcond3] at h
  | case11 b0 b1 b2 b3 rest h0 ih =>
      intro cs h
      simp only [utf8Decode, if_pos h0, Option.map_eq_some'] at h
      obtain ⟨cs2, hrest, rfl⟩ := h
      rw [utf8Encode_cons, utf8EncodeChar_one b0 h0, ih cs2 hrest]
      rfl
  | case12 b0 b1 b2 b3 rest h0 hcond ih =>
      intro cs h
      simp only [utf8Decode, if_neg h0, if_pos hcond, Option.map_eq_some'] at h
      obtain ⟨cs2, hrest, rfl⟩ := h
      obtain ⟨hl, hc1⟩ : utf8Lead2 b0 = true ∧ isCont b1 = true := by simpa using hcond
      rw [utf8Encode_cons, utf8EncodeChar_two b0 b1 hl hc1, ih cs2 hrest]
      rfl
  | case13 b0 b1 b2 b3 rest h0 hcond2 hcond3 ih =>
      intro cs h
      simp only [utf8Decode, if_neg h0, if_neg hcond2, if_pos hcond3, Option.map_eq_some'] at h
      obtain ⟨cs2, hrest, rfl⟩ := h
      obtain ⟨hl, hs3, hc2⟩ : utf8Lead3 b0 = true ∧ utf8Second3 b0 b1 = true ∧ isCont b2 = true := by
        simpa [Bool.and_eq_true] using hcond3
      rw [utf8Encode_cons, utf8EncodeChar_three b0 b1 b2 hl hs3 hc2, ih cs2 hrest]
      rfl
  | case14 b0 b1 b2 b3 rest h0 hcond2 hcond3 hcond4 ih =>
      intro cs h
      simp only [utf8Decode, if_neg h0, if_neg hcond2, if_neg hcond3, if_pos hcond4,
        Option.map_eq_some'] at h
      obtain ⟨cs2, hrest, rfl⟩ := h
      obtain ⟨hl, hs4, hc2, hc3⟩ :
          utf8Lead4 b0 = true ∧ utf8Second4 b0 b1 = true ∧ isCont b2 = true ∧ isCont b3 = true := by
        simpa [Bool.and_eq_true] using hcond4
      rw [utf8Encode_cons, utf8EncodeChar_four b0 b1 b2 b3 hl hs4 hc2 hc3, ih cs2 hrest]
      rfl
  | case15 b0 b1 b2 b3 rest h0 hcond2 hcond3 hcond4 =>
      intro cs h
      simp only [Bool.and_eq_true] at hcond2 hcond3 hcond4
      simp [utf8Decode, h0, hcond2, hcond3, hcond4] at h

/-- C9: for every recovered payload, the decode output loop writes the
payload followed by one newline byte when the payload is valid UTF-8 (line
printing of the parsed text, the bytes themselves unaltered), and writes the
payload verbatim with no newline otherwise. -/
theorem decode_output_loop (p : List Nat) :
    ((utf8Decode p).isSome → writeContent p = p ++ [10])
    ∧ ((utf8Decode p).isNone → writeContent p = p) := by
  constructor
  · intro hsome
    obtain ⟨cs, hcs⟩ := Option.isSome_iff_exists.mp hsome
    rw [writeContent, hcs]
    show utf8Encode cs ++ [10] = p ++ [10]
    rw [utf8Encode_decode p cs hcs]
  · intro hnone
    rw [writeContent, Option.isNone_iff_eq_none.mp hnone]

/-- Closed instance of `decode_output_loop`: the valid UTF-8 payload "Hi"
goes out with a trailing newline, the invalid payload 0xFF goes out
verbatim. -/
theorem decode_output_loop_witness :
    writeContent [72, 105] = [72, 105] ++ [10] ∧ writeContent [255] = [255] :=
  ⟨(decode_output_loop [72, 105]).1 (by decide), (decode_output_loop [255]).2 (by decide)⟩

end Qrtool
